import Mathlib

/-!
Verification development for `scripts/generate-assets.py` ("Verum Omnis -
Generate Rule Assets").  The script builds two literal JSON documents in
memory (`dishonesty_matrix` and `extraction_protocol`), ensures the
destination directory `app/src/main/assets/rules` exists
(`mkdir(parents=True, exist_ok=True)`), and serializes each document to its
own file with `json.dump(..., indent=2)`.

The embedding below models:
* JSON values (`JsonValue`) with ordered object fields, matching Python
  dicts' insertion-order semantics;
* the two document literals, transcribed from the source;
* CPython's `json.dump` with `indent=2` (`dumpJson`);
* a small JSON parser (`parseJson`) used to state round-trip properties;
* a filesystem state (`FS`) with directory creation and file-write
  operations, and the script's effect (`create_rule_assets`) on it,
  including the uncaught-exception exit-status behaviour of `__main__`.
-/

/-- A JSON value.  Object fields are an ordered association list: Python
dicts preserve insertion order and `json.dump` emits keys in that order. -/
inductive JsonValue where
  | str (s : String)
  | int (n : Int)
  | arr (elems : List JsonValue)
  | obj (fields : List (String × JsonValue))

/-- The `dishonesty_matrix` dict literal from `create_rule_assets`. -/
def dishonesty_matrix : JsonValue :=
  JsonValue.obj [
    ("version", JsonValue.str "1.0"),
    ("contradictions", JsonValue.obj [
      ("weight", JsonValue.int 3),
      ("examples", JsonValue.arr [JsonValue.str "Opposing statements vs evidence"]),
      ("patterns", JsonValue.arr [
        JsonValue.str "no deal.*invoice",
        JsonValue.str "denied.*admitted",
        JsonValue.str "refused.*accepted",
        JsonValue.str "never.*always"])]),
    ("omissions", JsonValue.obj [
      ("weight", JsonValue.int 2),
      ("examples", JsonValue.arr [JsonValue.str "Cropped screenshots"]),
      ("patterns", JsonValue.arr [
        JsonValue.str "selective.*edit",
        JsonValue.str "missing.*context",
        JsonValue.str "cropped.*screenshot"])]),
    ("manipulations", JsonValue.obj [
      ("weight", JsonValue.int 3),
      ("examples", JsonValue.arr [JsonValue.str "Altered documents"]),
      ("patterns", JsonValue.arr [
        JsonValue.str "modified.*original",
        JsonValue.str "altered.*date"])])]

/-- The `extraction_protocol` dict literal from `create_rule_assets`. -/
def extraction_protocol : JsonValue :=
  JsonValue.obj [
    ("version", JsonValue.str "1.0"),
    ("step1_keywords", JsonValue.arr [
      JsonValue.str "admin", JsonValue.str "deny", JsonValue.str "forged",
      JsonValue.str "access", JsonValue.str "delete", JsonValue.str "refuse",
      JsonValue.str "invoice", JsonValue.str "profit", JsonValue.str "transfer",
      JsonValue.str "payment"]),
    ("step2_tags", JsonValue.arr [
      JsonValue.str "#Cybercrime", JsonValue.str "#Fraud",
      JsonValue.str "#Oppression", JsonValue.str "#FiduciaryBreach"]),
    ("step3_scoring", JsonValue.obj [
      ("low", JsonValue.obj [("weight", JsonValue.int 1), ("color", JsonValue.str "#4CAF50")]),
      ("medium", JsonValue.obj [("weight", JsonValue.int 2), ("color", JsonValue.str "#FF9800")]),
      ("high", JsonValue.obj [("weight", JsonValue.int 3), ("color", JsonValue.str "#F44336")])])]

/-- Hexadecimal digit character (lowercase), as CPython emits in escapes. -/
def hexDigitChar (n : Nat) : Char :=
  if n < 10 then Char.ofNat (48 + n) else Char.ofNat (87 + n)

/-- Four-digit lowercase hex rendering of `n < 65536`. -/
def hex4 (n : Nat) : String :=
  String.mk [hexDigitChar (n / 4096 % 16), hexDigitChar (n / 256 % 16),
             hexDigitChar (n / 16 % 16), hexDigitChar (n % 16)]

/-- Escape of one character inside a JSON string, following CPython's
`json.dump` default (`ensure_ascii=True`): characters outside printable
ASCII become `\uXXXX` escapes (surrogate pairs above the BMP). -/
def escapeChar (c : Char) : String :=
  if c = '"' then "\\\""
  else if c = '\\' then "\\\\"
  else if c = '\n' then "\\n"
  else if c = '\r' then "\\r"
  else if c = '\t' then "\\t"
  else if c.toNat = 8 then "\\b"
  else if c.toNat = 12 then "\\f"
  else if c.toNat < 32 || 126 < c.toNat then
    if c.toNat < 65536 then "\\u" ++ hex4 c.toNat
    else
      "\\u" ++ hex4 (55296 + (c.toNat - 65536) / 1024)
        ++ "\\u" ++ hex4 (56320 + (c.toNat - 65536) % 1024)
  else String.mk [c]

/-- JSON string literal rendering (quotes plus escaped content). -/
def escapeString (s : String) : String :=
  "\"" ++ String.join (s.data.map escapeChar) ++ "\""

/-- `n` spaces. -/
def indentStr (n : Nat) : String := String.mk (List.replicate n ' ')

mutual
/-- CPython `json.dump(v, f, indent=2)` rendering of `v` at nesting level
`lvl`: containers open on the current line, each child on its own line
indented `2 * (lvl + 1)` spaces, items separated by `,`, object keys
emitted in field order with `: ` between key and value, and the closing
bracket indented `2 * lvl` spaces. -/
def dumpVal (lvl : Nat) : JsonValue → String
  | JsonValue.str s => escapeString s
  | JsonValue.int n => toString n
  | JsonValue.arr [] => "[]"
  | JsonValue.arr (e :: es) =>
      "[\n" ++ indentStr (2 * (lvl + 1)) ++ dumpVal (lvl + 1) e
        ++ dumpElems lvl es ++ "\n" ++ indentStr (2 * lvl) ++ "]"
  | JsonValue.obj [] => "\x7b\x7d"
  | JsonValue.obj ((k, v) :: fs) =>
      "\x7b\n" ++ indentStr (2 * (lvl + 1)) ++ escapeString k ++ ": "
        ++ dumpVal (lvl + 1) v ++ dumpFields lvl fs
        ++ "\n" ++ indentStr (2 * lvl) ++ "\x7d"

/-- Remaining array elements, each preceded by `,` newline and indent. -/
def dumpElems (lvl : Nat) : List JsonValue → String
  | [] => ""
  | e :: es =>
      ",\n" ++ indentStr (2 * (lvl + 1)) ++ dumpVal (lvl + 1) e ++ dumpElems lvl es

/-- Remaining object fields, each preceded by `,` newline and indent. -/
def dumpFields (lvl : Nat) : List (String × JsonValue) → String
  | [] => ""
  | (k, v) :: fs =>
      ",\n" ++ indentStr (2 * (lvl + 1)) ++ escapeString k ++ ": "
        ++ dumpVal (lvl + 1) v ++ dumpFields lvl fs
end

/-- Top-level `json.dump(v, f, indent=2)` output. -/
def dumpJson (v : JsonValue) : String := dumpVal 0 v

/-- JSON whitespace. -/
def isWsChar (c : Char) : Bool := c = ' ' || c = '\n' || c = '\t' || c = '\r'

/-- Drop leading JSON whitespace. -/
def skipWs : List Char → List Char
  | [] => []
  | c :: cs => if isWsChar c then skipWs cs else c :: cs

/-- ASCII decimal digit. -/
def isDigitChar (c : Char) : Bool := 48 ≤ c.toNat && c.toNat ≤ 57

/-- Split a leading run of decimal digits from the rest. -/
def takeDigits : List Char → (List Char × List Char)
  | [] => ([], [])
  | c :: cs =>
    if isDigitChar c then
      let (ds, rest) := takeDigits cs
      (c :: ds, rest)
    else ([], c :: cs)

/-- Value of a decimal digit string. -/
def digitsToNat (ds : List Char) : Nat :=
  ds.foldl (fun acc c => acc * 10 + (c.toNat - 48)) 0

/-- Value of one hex digit character, if it is one. -/
def hexVal (c : Char) : Option Nat :=
  if 48 ≤ c.toNat && c.toNat ≤ 57 then some (c.toNat - 48)
  else if 97 ≤ c.toNat && c.toNat ≤ 102 then some (c.toNat - 87)
  else if 65 ≤ c.toNat && c.toNat ≤ 70 then some (c.toNat - 55)
  else none

/-- Parse the body of a JSON string literal (after the opening quote),
returning the decoded characters and the input after the closing quote.
`fuel` bounds recursion depth. -/
def parseStringBody : Nat → List Char → Option (List Char × List Char)
  | 0, _ => none
  | _, [] => none
  | fuel + 1, c :: cs =>
    if c = '"' then some ([], cs)
    else if c = '\\' then
      match cs with
      | [] => none
      | e :: cs2 =>
        let cont : Char → List Char → Option (List Char × List Char) :=
          fun r rest =>
            match parseStringBody fuel rest with
            | some (out, rem) => some (r :: out, rem)
            | none => none
        if e = '"' then cont '"' cs2
        else if e = '\\' then cont '\\' cs2
        else if e = '/' then cont '/' cs2
        else if e = 'n' then cont '\n' cs2
        else if e = 't' then cont '\t' cs2
        else if e = 'r' then cont '\r' cs2
        else if e = 'b' then cont (Char.ofNat 8) cs2
        else if e = 'f' then cont (Char.ofNat 12) cs2
        else if e = 'u' then
          match cs2 with
          | a :: b :: c3 :: d :: cs3 =>
            match hexVal a, hexVal b, hexVal c3, hexVal d with
            | some ha, some hb, some hc, some hd =>
                cont (Char.ofNat (ha * 4096 + hb * 256 + hc * 16 + hd)) cs3
            | _, _, _, _ => none
          | _ => none
        else none
    else
      match parseStringBody fuel cs with
      | some (out, rem) => some (c :: out, rem)
      | none => none

mutual
/-- Recursive-descent parser for the JSON fragment the generator emits
(strings, integers, arrays, objects with ordered fields).  Returns the
value and the unconsumed input. -/
def parseVal : Nat → List Char → Option (JsonValue × List Char)
  | 0, _ => none
  | fuel + 1, cs =>
    match skipWs cs with
    | [] => none
    | c :: cs1 =>
      if c = '"' then
        match parseStringBody (cs1.length + 1) cs1 with
        | some (out, rest) => some (JsonValue.str (String.mk out), rest)
        | none => none
      else if c.toNat = 91 then
        match skipWs cs1 with
        | c2 :: cs2 =>
          if c2.toNat = 93 then some (JsonValue.arr [], cs2)
          else
            match parseVal fuel (c2 :: cs2) with
            | some (v, rest) =>
              match parseArrTail fuel rest with
              | some (vs, rest2) => some (JsonValue.arr (v :: vs), rest2)
              | none => none
            | none => none
        | [] => none
      else if c.toNat = 123 then
        match skipWs cs1 with
        | c2 :: cs2 =>
          if c2.toNat = 125 then some (JsonValue.obj [], cs2)
          else
            match parseField fuel (c2 :: cs2) with
            | some (kv, rest) =>
              match parseObjTail fuel rest with
              | some (kvs, rest2) => some (JsonValue.obj (kv :: kvs), rest2)
              | none => none
            | none => none
        | [] => none
      else if c = '-' then
        match takeDigits cs1 with
        | ([], _) => none
        | (ds, rest) => some (JsonValue.int (-(digitsToNat ds : Int)), rest)
      else if isDigitChar c then
        match takeDigits (c :: cs1) with
        | (ds, rest) => some (JsonValue.int ((digitsToNat ds : Int)), rest)
      else none

/-- After one array element: either `]` or `,` and further elements. -/
def parseArrTail : Nat → List Char → Option (List JsonValue × List Char)
  | 0, _ => none
  | fuel + 1, cs =>
    match skipWs cs with
    | c :: cs1 =>
      if c.toNat = 93 then some ([], cs1)
      else if c = ',' then
        match parseVal fuel cs1 with
        | some (v, rest) =>
          match parseArrTail fuel rest with
          | some (vs, rest2) => some (v :: vs, rest2)
          | none => none
        | none => none
      else none
    | [] => none

/-- One `"key": value` object member. -/
def parseField : Nat → List Char → Option ((String × JsonValue) × List Char)
  | 0, _ => none
  | fuel + 1, cs =>
    match skipWs cs with
    | c :: cs1 =>
      if c = '"' then
        match parseStringBody (cs1.length + 1) cs1 with
        | some (out, rest) =>
          match skipWs rest with
          | c2 :: cs2 =>
            if c2 = ':' then
              match parseVal fuel cs2 with
              | some (v, rest2) => some ((String.mk out, v), rest2)
              | none => none
            else none
          | [] => none
        | none => none
      else none
    | [] => none

/-- After one object member: either the closing brace or `,` and further
members. -/
def parseObjTail : Nat → List Char → Option (List (String × JsonValue) × List Char)
  | 0, _ => none
  | fuel + 1, cs =>
    match skipWs cs with
    | c :: cs1 =>
      if c.toNat = 125 then some ([], cs1)
      else if c = ',' then
        match parseField fuel cs1 with
        | some (kv, rest) =>
          match parseObjTail fuel rest with
          | some (kvs, rest2) => some (kv :: kvs, rest2)
          | none => none
        | none => none
      else none
    | [] => none
end

/-- Parse a complete JSON document: one value, optionally surrounded by
whitespace, with no trailing garbage. -/
def parseJson (s : String) : Option JsonValue :=
  match parseVal (s.length + 1) s.data with
  | some (v, rest) =>
    match skipWs rest with
    | [] => some v
    | _ => none
  | none => none

/-- A filesystem entry: a regular file with text contents, or a directory. -/
inductive Entry where
  | file (contents : String)
  | dir
deriving DecidableEq

/-- Filesystem state.  Paths are component lists relative to the process
working directory (`[]` is the working directory itself, always a
directory).  `unwritable` lists directories in which the process may not
create entries or open files for writing (modelling `PermissionError`). -/
structure FS where
  entries : List (List String × Entry)
  unwritable : List (List String)
deriving DecidableEq

/-- First entry bound to `p` in an entry list. -/
def lookupEntry : List (List String × Entry) → List String → Option Entry
  | [], _ => none
  | (q, e) :: rest, p => if q = p then some e else lookupEntry rest p

/-- The entry at path `p`, if any. -/
def FS.lookup (fs : FS) (p : List String) : Option Entry :=
  lookupEntry fs.entries p

/-- Whether `p` is a directory (the working directory `[]` always is). -/
def FS.isDirB (fs : FS) (p : List String) : Bool :=
  match p with
  | [] => true
  | _ =>
    match fs.lookup p with
    | some Entry.dir => true
    | _ => false

/-- Contents of the regular file at `p`, if `p` is one. -/
def FS.fileAt (fs : FS) (p : List String) : Option String :=
  match fs.lookup p with
  | some (Entry.file s) => some s
  | _ => none

/-- Replace (or append) the entry at `p`. -/
def setEntry (es : List (List String × Entry)) (p : List String) (e : Entry) :
    List (List String × Entry) :=
  match es with
  | [] => [(p, e)]
  | (q, e0) :: rest =>
    if q = p then (p, e) :: rest else (q, e0) :: setEntry rest p e

/-- One `mkdir` step: succeed if `p` is already a directory
(`exist_ok=True`), fail if a non-directory occupies `p`, fail if the
parent is missing or unwritable, otherwise create the directory. -/
def mkdir1 (fs : FS) (p : List String) : Except String FS :=
  match fs.lookup p with
  | some Entry.dir => Except.ok fs
  | some (Entry.file _) => Except.error "FileExistsError"
  | none =>
    if fs.isDirB p.dropLast then
      if p.dropLast ∈ fs.unwritable then Except.error "PermissionError"
      else Except.ok ⟨(p, Entry.dir) :: fs.entries, fs.unwritable⟩
    else Except.error "FileNotFoundError"

/-- The non-empty prefixes of `p`, shortest first: the chain of
directories `Path.mkdir(parents=True)` visits. -/
def pathChain (p : List String) : List (List String) :=
  (List.range p.length).map (fun i => p.take (i + 1))

/-- `Path(p).mkdir(parents=True, exist_ok=True)`: create every missing
directory along the chain, failing on a permission error or a
non-directory collision. -/
def mkdirParents (fs : FS) (p : List String) : Except String FS :=
  (pathChain p).foldlM mkdir1 fs

/-- `open(p, "w")` followed by a full write of `s`: fail if the parent
directory is missing or unwritable or if `p` is a directory; otherwise
create or truncate-and-overwrite the file. -/
def FS.writeFile (fs : FS) (p : List String) (s : String) : Except String FS :=
  if fs.isDirB p.dropLast then
    if p.dropLast ∈ fs.unwritable then Except.error "PermissionError"
    else
      match fs.lookup p with
      | some Entry.dir => Except.error "IsADirectoryError"
      | _ => Except.ok ⟨setEntry fs.entries p (Entry.file s), fs.unwritable⟩
  else Except.error "FileNotFoundError"

/-- `assets_dir = Path("app/src/main/assets/rules")`. -/
def assets_dir : List String := ["app", "src", "main", "assets", "rules"]

/-- Path of `dishonesty_matrix.json` inside the assets directory. -/
def dm_path : List String := assets_dir ++ ["dishonesty_matrix.json"]

/-- Path of `extraction_protocol.json` inside the assets directory. -/
def ep_path : List String := assets_dir ++ ["extraction_protocol.json"]

/-- Outcome of one invocation: the filesystem after the run, and the
uncaught exception if one was raised (effects before the exception
persist, as in Python). -/
structure RunResult where
  fs : FS
  err : Option String
deriving DecidableEq

/-- `create_rule_assets()`: make the assets directory (with parents),
then dump `dishonesty_matrix` and `extraction_protocol` to their files
with `indent=2`.  Any filesystem exception aborts the remaining steps. -/
def create_rule_assets (fs0 : FS) : RunResult :=
  match mkdirParents fs0 assets_dir with
  | Except.error e => ⟨fs0, some e⟩
  | Except.ok fs1 =>
    match fs1.writeFile dm_path (dumpJson dishonesty_matrix) with
    | Except.error e => ⟨fs1, some e⟩
    | Except.ok fs2 =>
      match fs2.writeFile ep_path (dumpJson extraction_protocol) with
      | Except.error e => ⟨fs2, some e⟩
      | Except.ok fs3 => ⟨fs3, none⟩

/-- Exit status of `python3 scripts/generate-assets.py`: `0` when
`create_rule_assets()` returns, `1` when an exception propagates out of
`__main__` uncaught. -/
def main_exit (fs : FS) : Nat :=
  match (create_rule_assets fs).err with
  | none => 0
  | some _ => 1

/-- A pristine working directory: no entries, everything writable
(the "clean checkout" root of the concrete scenario). -/
def cleanFS : FS := ⟨[], []⟩

/-- The paths of all regular files, in entry order. -/
def FS.filePaths (fs : FS) : List (List String) :=
  fs.entries.filterMap (fun e =>
    match e.2 with
    | Entry.file _ => some e.1
    | Entry.dir => none)

/-- The value of key `k` in a JSON object (first binding), if any. -/
def getField (v : JsonValue) (k : String) : Option JsonValue :=
  match v with
  | JsonValue.obj fields =>
    (fields.find? (fun e => e.1 = k)).map (fun e => e.2)
  | _ => none

/-- The JSON document stored in the file at `p`, if the file exists and
parses. -/
def writtenDoc (fs : FS) (p : List String) : Option JsonValue :=
  (fs.fileAt p).bind parseJson

/-- A JSON string. -/
def isStr : JsonValue → Bool
  | JsonValue.str _ => true
  | _ => false

/-- A JSON integer. -/
def isInt : JsonValue → Bool
  | JsonValue.int _ => true
  | _ => false

/-- A JSON array whose elements are all strings. -/
def isStrArr : JsonValue → Bool
  | JsonValue.arr es => es.all isStr
  | _ => false

/-- Modelled from the spec (§3, DishonestyMatrix): a category record has
exactly the keys `weight` (integer), `examples` (string sequence) and
`patterns` (string sequence), in that construction order. -/
def specCategoryRecord : JsonValue → Bool
  | JsonValue.obj [("weight", w), ("examples", ex), ("patterns", ps)] =>
    isInt w && isStrArr ex && isStrArr ps
  | _ => false

/-- Modelled from the spec (§3, DishonestyMatrix): top-level keys
`version` (string) then `contradictions`, `omissions`, `manipulations`,
each a category record. -/
def specSchemaDishonesty : JsonValue → Bool
  | JsonValue.obj [("version", v), ("contradictions", c),
                   ("omissions", o), ("manipulations", m)] =>
    isStr v && specCategoryRecord c && specCategoryRecord o && specCategoryRecord m
  | _ => false

/-- Modelled from the spec (§3, ExtractionProtocol): a scoring entry is a
record of `weight` (integer) and `color` (string). -/
def specScoringEntry : JsonValue → Bool
  | JsonValue.obj [("weight", w), ("color", c)] => isInt w && isStr c
  | _ => false

/-- Modelled from the spec (§3, ExtractionProtocol): keys `version`
(string), `step1_keywords` and `step2_tags` (string sequences), and
`step3_scoring` mapping `low`, `medium`, `high` to scoring entries. -/
def specSchemaExtraction : JsonValue → Bool
  | JsonValue.obj [("version", v), ("step1_keywords", k),
                   ("step2_tags", t), ("step3_scoring", s)] =>
    isStr v && isStrArr k && isStrArr t &&
      (match s with
       | JsonValue.obj [("low", l), ("medium", m), ("high", h)] =>
         specScoringEntry l && specScoringEntry m && specScoringEntry h
       | _ => false)
  | _ => false

mutual
/-- All integer values bound to a `weight` key anywhere in the document,
in document order. -/
def weightsOf : JsonValue → List Int
  | JsonValue.str _ => []
  | JsonValue.int _ => []
  | JsonValue.arr es => weightsOfList es
  | JsonValue.obj fields => weightsOfFields fields

/-- `weightsOf` over array elements. -/
def weightsOfList : List JsonValue → List Int
  | [] => []
  | e :: es => weightsOf e ++ weightsOfList es

/-- `weightsOf` over object fields, picking up integer `weight` keys. -/
def weightsOfFields : List (String × JsonValue) → List Int
  | [] => []
  | (k, v) :: fields =>
    (if k = "weight" then
       match v with
       | JsonValue.int n => [n]
       | _ => []
     else []) ++ weightsOf v ++ weightsOfFields fields
end

/-- The `step3_scoring.<sev>.weight` value of `extraction_protocol`. -/
def scoringWeight (sev : String) : Option JsonValue :=
  ((getField extraction_protocol "step3_scoring").bind
    (fun s => getField s sev)).bind (fun r => getField r "weight")

/-- The string starts with the marker character `#`. -/
def isHashTag (s : String) : Bool := s.data.head? = some '#'

/-- An ASCII hexadecimal digit. -/
def isHexDigitChar (c : Char) : Bool := (hexVal c).isSome

/-- `#` followed by exactly six hexadecimal digits. -/
def isHexColor (s : String) : Bool :=
  match s.data with
  | c :: rest => c = '#' && rest.length = 6 && rest.all isHexDigitChar
  | [] => false

/-- The strings of the `step2_tags` array of `extraction_protocol`. -/
def step2TagStrings : List String :=
  match getField extraction_protocol "step2_tags" with
  | some (JsonValue.arr es) =>
    es.filterMap (fun v =>
      match v with
      | JsonValue.str s => some s
      | _ => none)
  | _ => []

/-- The `color` strings of the `step3_scoring` entries of
`extraction_protocol`, in field order. -/
def scoringColors : List String :=
  match getField extraction_protocol "step3_scoring" with
  | some (JsonValue.obj fields) =>
    fields.filterMap (fun e =>
      match getField e.2 "color" with
      | some (JsonValue.str s) => some s
      | _ => none)
  | _ => []

set_option maxRecDepth 100000

theorem lookupEntry_setEntry (es : List (List String × Entry))
    (p p' : List String) (e : Entry) :
    lookupEntry (setEntry es p e) p' =
      if p = p' then some e else lookupEntry es p' := by
  induction es with
  | nil =>
    by_cases h : p = p' <;> simp [setEntry, lookupEntry, h]
  | cons hd tl ih =>
    obtain ⟨q, e0⟩ := hd
    by_cases hq : q = p
    · subst hq
      by_cases h : q = p' <;> simp [setEntry, lookupEntry, h]
    · by_cases h : q = p'
      · subst h
        have : ¬ p = q := fun hc => hq hc.symm
        simp [setEntry, lookupEntry, hq, this]
      · simp [setEntry, lookupEntry, hq, h, ih]

theorem mkdir1_ok_unwritable {fs fs' : FS} {q : List String}
    (h : mkdir1 fs q = Except.ok fs') : fs'.unwritable = fs.unwritable := by
  unfold mkdir1 at h
  cases hq : fs.lookup q with
  | none =>
    rw [hq] at h
    by_cases hd : fs.isDirB q.dropLast = true
    · rw [if_pos hd] at h
      by_cases hm : q.dropLast ∈ fs.unwritable
      · rw [if_pos hm] at h; cases h
      · rw [if_neg hm] at h
        cases h
        rfl
    · rw [if_neg hd] at h; cases h
  | some e =>
    cases e with
    | dir =>
      rw [hq] at h
      cases h
      rfl
    | file s => rw [hq] at h; cases h

theorem mkdir1_ok_cases {fs fs' : FS} {q : List String}
    (h : mkdir1 fs q = Except.ok fs') :
    (fs.lookup q = some Entry.dir ∧ fs' = fs) ∨
    (fs.lookup q = none ∧ fs.isDirB q.dropLast = true ∧
      q.dropLast ∉ fs.unwritable ∧
      fs' = ⟨(q, Entry.dir) :: fs.entries, fs.unwritable⟩) := by
  unfold mkdir1 at h
  cases hq : fs.lookup q with
  | none =>
    rw [hq] at h
    by_cases hd : fs.isDirB q.dropLast = true
    · rw [if_pos hd] at h
      by_cases hm : q.dropLast ∈ fs.unwritable
      · rw [if_pos hm] at h; cases h
      · rw [if_neg hm] at h
        cases h
        exact Or.inr ⟨rfl, hd, hm, rfl⟩
    · rw [if_neg hd] at h; cases h
  | some e =>
    cases e with
    | dir =>
      rw [hq] at h
      cases h
      exact Or.inl ⟨rfl, rfl⟩
    | file s => rw [hq] at h; cases h

theorem mkdir1_of_dir {fs : FS} {q : List String}
    (h : fs.lookup q = some Entry.dir) : mkdir1 fs q = Except.ok fs := by
  unfold mkdir1
  rw [h]

theorem mkdir1_ok_fileAt {fs fs' : FS} {q : List String}
    (h : mkdir1 fs q = Except.ok fs') (p : List String) :
    fs'.fileAt p = fs.fileAt p := by
  rcases mkdir1_ok_cases h with ⟨_, rfl⟩ | ⟨hq, _, _, rfl⟩
  · rfl
  · unfold FS.fileAt FS.lookup
    by_cases hpq : q = p
    · subst hpq
      unfold FS.lookup at hq
      simp [lookupEntry, hq]
    · simp [lookupEntry, hpq]

theorem mkdir1_ok_dir_preserved {fs fs' : FS} {q p : List String}
    (h : mkdir1 fs q = Except.ok fs') (hp : fs.lookup p = some Entry.dir) :
    fs'.lookup p = some Entry.dir := by
  rcases mkdir1_ok_cases h with ⟨_, rfl⟩ | ⟨hq, _, _, rfl⟩
  · exact hp
  · unfold FS.lookup
    by_cases hpq : q = p
    · simp [lookupEntry, hpq]
    · simpa [lookupEntry, hpq] using hp

theorem mkdir1_ok_creates {fs fs' : FS} {q : List String}
    (h : mkdir1 fs q = Except.ok fs') : fs'.lookup q = some Entry.dir := by
  rcases mkdir1_ok_cases h with ⟨hq, rfl⟩ | ⟨hq, _, _, rfl⟩
  · exact hq
  · unfold FS.lookup
    simp [lookupEntry]

theorem foldlM_mkdir_ok_unwritable :
    ∀ (l : List (List String)) (fs fs' : FS),
      l.foldlM mkdir1 fs = Except.ok fs' → fs'.unwritable = fs.unwritable := by
  intro l
  induction l with
  | nil =>
    intro fs fs' h
    cases h
    rfl
  | cons a l ih =>
    intro fs fs' h
    rw [List.foldlM_cons] at h
    cases ha : mkdir1 fs a with
    | error e =>
      rw [ha] at h
      cases h
    | ok fs1 =>
      rw [ha] at h
      exact (ih fs1 fs' h).trans (mkdir1_ok_unwritable ha)

theorem foldlM_mkdir_ok_fileAt :
    ∀ (l : List (List String)) (fs fs' : FS),
      l.foldlM mkdir1 fs = Except.ok fs' →
      ∀ p, fs'.fileAt p = fs.fileAt p := by
  intro l
  induction l with
  | nil =>
    intro fs fs' h p
    cases h
    rfl
  | cons a l ih =>
    intro fs fs' h p
    rw [List.foldlM_cons] at h
    cases ha : mkdir1 fs a with
    | error e => rw [ha] at h; cases h
    | ok fs1 =>
      rw [ha] at h
      exact (ih fs1 fs' h p).trans (mkdir1_ok_fileAt ha p)

theorem foldlM_mkdir_dir_preserved :
    ∀ (l : List (List String)) (fs fs' : FS),
      l.foldlM mkdir1 fs = Except.ok fs' →
      ∀ p, fs.lookup p = some Entry.dir → fs'.lookup p = some Entry.dir := by
  intro l
  induction l with
  | nil =>
    intro fs fs' h p hp
    cases h
    exact hp
  | cons a l ih =>
    intro fs fs' h p hp
    rw [List.foldlM_cons] at h
    cases ha : mkdir1 fs a with
    | error e => rw [ha] at h; cases h
    | ok fs1 =>
      rw [ha] at h
      exact ih fs1 fs' h p (mkdir1_ok_dir_preserved ha hp)

theorem foldlM_mkdir_dirs :
    ∀ (l : List (List String)) (fs fs' : FS),
      l.foldlM mkdir1 fs = Except.ok fs' →
      ∀ q ∈ l, fs'.lookup q = some Entry.dir := by
  intro l
  induction l with
  | nil =>
    intro fs fs' _ q hq
    cases hq
  | cons a l ih =>
    intro fs fs' h q hq
    rw [List.foldlM_cons] at h
    cases ha : mkdir1 fs a with
    | error e => rw [ha] at h; cases h
    | ok fs1 =>
      rw [ha] at h
      cases List.mem_cons.mp hq with
      | inl hqa =>
        subst hqa
        exact foldlM_mkdir_dir_preserved l fs1 fs' h q (mkdir1_ok_creates ha)
      | inr hql => exact ih fs1 fs' h q hql

theorem foldlM_mkdir_of_dirs :
    ∀ (l : List (List String)) (fs : FS),
      (∀ q ∈ l, fs.lookup q = some Entry.dir) →
      l.foldlM mkdir1 fs = Except.ok fs := by
  intro l
  induction l with
  | nil => intro fs _; rfl
  | cons a l ih =>
    intro fs h
    rw [List.foldlM_cons, mkdir1_of_dir (h a (List.mem_cons_self a l))]
    exact ih fs (fun q hq => h q (List.mem_cons_of_mem a hq))

theorem writeFile_ok_cases {fs fs' : FS} {p : List String} {s : String}
    (h : fs.writeFile p s = Except.ok fs') :
    fs.isDirB p.dropLast = true ∧ p.dropLast ∉ fs.unwritable ∧
      fs.lookup p ≠ some Entry.dir ∧
      fs' = ⟨setEntry fs.entries p (Entry.file s), fs.unwritable⟩ := by
  unfold FS.writeFile at h
  by_cases hd : fs.isDirB p.dropLast = true
  · rw [if_pos hd] at h
    by_cases hm : p.dropLast ∈ fs.unwritable
    · rw [if_pos hm] at h; cases h
    · rw [if_neg hm] at h
      cases hp : fs.lookup p with
      | none =>
        rw [hp] at h
        cases h
        exact ⟨hd, hm, by simp [hp], rfl⟩
      | some e =>
        cases e with
        | dir => rw [hp] at h; cases h
        | file s0 =>
          rw [hp] at h
          cases h
          exact ⟨hd, hm, by simp [hp], rfl⟩
  · rw [if_neg hd] at h; cases h

theorem writeFile_ok_of {fs : FS} {p : List String} (s : String)
    (hd : fs.isDirB p.dropLast = true) (hm : p.dropLast ∉ fs.unwritable)
    (hp : fs.lookup p ≠ some Entry.dir) :
    fs.writeFile p s =
      Except.ok ⟨setEntry fs.entries p (Entry.file s), fs.unwritable⟩ := by
  unfold FS.writeFile
  rw [if_pos hd, if_neg hm]
  cases hl : fs.lookup p with
  | none => rfl
  | some e =>
    cases e with
    | dir => exact absurd hl hp
    | file s0 => rfl

theorem writeFile_ok_fileAt_self {fs fs' : FS} {p : List String} {s : String}
    (h : fs.writeFile p s = Except.ok fs') : fs'.fileAt p = some s := by
  obtain ⟨_, _, _, rfl⟩ := writeFile_ok_cases h
  unfold FS.fileAt FS.lookup
  simp [lookupEntry_setEntry]

theorem writeFile_ok_lookup_other {fs fs' : FS} {p p' : List String} {s : String}
    (h : fs.writeFile p s = Except.ok fs') (hne : p ≠ p') :
    fs'.lookup p' = fs.lookup p' := by
  obtain ⟨_, _, _, rfl⟩ := writeFile_ok_cases h
  unfold FS.lookup
  simp [lookupEntry_setEntry, hne]

theorem writeFile_ok_fileAt_other {fs fs' : FS} {p p' : List String} {s : String}
    (h : fs.writeFile p s = Except.ok fs') (hne : p ≠ p') :
    fs'.fileAt p' = fs.fileAt p' := by
  unfold FS.fileAt
  rw [writeFile_ok_lookup_other h hne]

theorem create_rule_assets_mkdir_error {fs : FS} {e : String}
    (h : mkdirParents fs assets_dir = Except.error e) :
    create_rule_assets fs = ⟨fs, some e⟩ := by
  unfold create_rule_assets
  rw [h]

theorem create_rule_assets_write1_error {fs fs1 : FS} {e : String}
    (h1 : mkdirParents fs assets_dir = Except.ok fs1)
    (h2 : fs1.writeFile dm_path (dumpJson dishonesty_matrix) = Except.error e) :
    create_rule_assets fs = ⟨fs1, some e⟩ := by
  unfold create_rule_assets
  rw [h1]
  dsimp only
  rw [h2]

theorem create_rule_assets_write2_error {fs fs1 fs2 : FS} {e : String}
    (h1 : mkdirParents fs assets_dir = Except.ok fs1)
    (h2 : fs1.writeFile dm_path (dumpJson dishonesty_matrix) = Except.ok fs2)
    (h3 : fs2.writeFile ep_path (dumpJson extraction_protocol) = Except.error e) :
    create_rule_assets fs = ⟨fs2, some e⟩ := by
  unfold create_rule_assets
  rw [h1]
  dsimp only
  rw [h2]
  dsimp only
  rw [h3]

theorem create_rule_assets_ok_eq {fs fs1 fs2 fs3 : FS}
    (h1 : mkdirParents fs assets_dir = Except.ok fs1)
    (h2 : fs1.writeFile dm_path (dumpJson dishonesty_matrix) = Except.ok fs2)
    (h3 : fs2.writeFile ep_path (dumpJson extraction_protocol) = Except.ok fs3) :
    create_rule_assets fs = ⟨fs3, none⟩ := by
  unfold create_rule_assets
  rw [h1]
  dsimp only
  rw [h2]
  dsimp only
  rw [h3]

theorem run_ok_decomp {fs : FS}
    (h : (create_rule_assets fs).err = none) :
    ∃ fs1 fs2, mkdirParents fs assets_dir = Except.ok fs1 ∧
      fs1.writeFile dm_path (dumpJson dishonesty_matrix) = Except.ok fs2 ∧
      fs2.writeFile ep_path (dumpJson extraction_protocol) =
        Except.ok (create_rule_assets fs).fs := by
  cases h1 : mkdirParents fs assets_dir with
  | error e =>
    rw [create_rule_assets_mkdir_error h1] at h
    cases h
  | ok fs1 =>
    cases h2 : fs1.writeFile dm_path (dumpJson dishonesty_matrix) with
    | error e =>
      rw [create_rule_assets_write1_error h1 h2] at h
      cases h
    | ok fs2 =>
      cases h3 : fs2.writeFile ep_path (dumpJson extraction_protocol) with
      | error e =>
        rw [create_rule_assets_write2_error h1 h2 h3] at h
        cases h
      | ok fs3 =>
        refine ⟨fs1, fs2, rfl, h2, ?_⟩
        rw [create_rule_assets_ok_eq h1 h2 h3]
        exact h3

theorem isDirB_of_lookup {fs : FS} {q : List String}
    (h : fs.lookup q = some Entry.dir) : fs.isDirB q = true := by
  cases q with
  | nil => rfl
  | cons a l => simp [FS.isDirB, h]

theorem lookup_of_fileAt {fs : FS} {p : List String} {s : String}
    (h : fs.fileAt p = some s) : fs.lookup p = some (Entry.file s) := by
  unfold FS.fileAt at h
  cases hl : fs.lookup p with
  | none => simp [hl] at h
  | some e =>
    cases e with
    | dir => simp [hl] at h
    | file s0 =>
      simp [hl] at h
      rw [h]

theorem run_ok_fileAt {fs : FS}
    (h : (create_rule_assets fs).err = none) :
    (create_rule_assets fs).fs.fileAt dm_path = some (dumpJson dishonesty_matrix) ∧
    (create_rule_assets fs).fs.fileAt ep_path = some (dumpJson extraction_protocol) := by
  obtain ⟨fs1, fs2, h1, h2, h3⟩ := run_ok_decomp h
  have hne : ep_path ≠ dm_path := by decide
  constructor
  · rw [writeFile_ok_fileAt_other h3 hne]
    exact writeFile_ok_fileAt_self h2
  · exact writeFile_ok_fileAt_self h3

theorem run_ok_dirs {fs : FS}
    (h : (create_rule_assets fs).err = none) :
    ∀ q ∈ pathChain assets_dir,
      (create_rule_assets fs).fs.lookup q = some Entry.dir := by
  obtain ⟨fs1, fs2, h1, h2, h3⟩ := run_ok_decomp h
  have hall : ∀ q ∈ pathChain assets_dir, dm_path ≠ q ∧ ep_path ≠ q := by decide
  intro q hq
  obtain ⟨hdm, hep⟩ := hall q hq
  rw [writeFile_ok_lookup_other h3 hep, writeFile_ok_lookup_other h2 hdm]
  exact foldlM_mkdir_dirs _ _ _ h1 q hq

theorem writeFile_ok_unwritable {fs fs' : FS} {p : List String} {s : String}
    (h : fs.writeFile p s = Except.ok fs') : fs'.unwritable = fs.unwritable := by
  obtain ⟨_, _, _, rfl⟩ := writeFile_ok_cases h
  rfl

theorem run_ok_parent_unwritable {fs : FS}
    (h : (create_rule_assets fs).err = none) :
    assets_dir ∉ (create_rule_assets fs).fs.unwritable := by
  obtain ⟨fs1, fs2, h1, h2, h3⟩ := run_ok_decomp h
  obtain ⟨_, hm, _, _⟩ := writeFile_ok_cases h2
  have hdl : dm_path.dropLast = assets_dir := by decide
  rw [writeFile_ok_unwritable h3, writeFile_ok_unwritable h2]
  rw [hdl] at hm
  exact hm

theorem run_ok_second_run {fs : FS}
    (h : (create_rule_assets fs).err = none) :
    (create_rule_assets (create_rule_assets fs).fs).err = none ∧
    (create_rule_assets (create_rule_assets fs).fs).fs.fileAt dm_path =
      some (dumpJson dishonesty_matrix) ∧
    (create_rule_assets (create_rule_assets fs).fs).fs.fileAt ep_path =
      some (dumpJson extraction_protocol) := by
  have hdirs := run_ok_dirs h
  have hfiles := run_ok_fileAt h
  have hunw := run_ok_parent_unwritable h
  have hdmdl : dm_path.dropLast = assets_dir := by decide
  have hepdl : ep_path.dropLast = assets_dir := by decide
  have hmem : assets_dir ∈ pathChain assets_dir := by decide
  have hdmne : dm_path ≠ ep_path := by decide
  have hdma : dm_path ≠ assets_dir := by decide
  set fs3 := (create_rule_assets fs).fs with hfs3
  have hmk2 : mkdirParents fs3 assets_dir = Except.ok fs3 :=
    foldlM_mkdir_of_dirs _ _ hdirs
  have hlookdm : fs3.lookup dm_path = some (Entry.file (dumpJson dishonesty_matrix)) :=
    lookup_of_fileAt hfiles.1
  have hlookep : fs3.lookup ep_path = some (Entry.file (dumpJson extraction_protocol)) :=
    lookup_of_fileAt hfiles.2
  have hw1 : fs3.writeFile dm_path (dumpJson dishonesty_matrix) =
      Except.ok ⟨setEntry fs3.entries dm_path
        (Entry.file (dumpJson dishonesty_matrix)), fs3.unwritable⟩ := by
    apply writeFile_ok_of
    · rw [hdmdl]
      exact isDirB_of_lookup (hdirs assets_dir hmem)
    · rw [hdmdl]
      exact hunw
    · rw [hlookdm]
      simp
  set fs4 : FS := ⟨setEntry fs3.entries dm_path
    (Entry.file (dumpJson dishonesty_matrix)), fs3.unwritable⟩ with hfs4
  have hlook4 : ∀ p, dm_path ≠ p → fs4.lookup p = fs3.lookup p := by
    intro p hp
    unfold FS.lookup
    rw [hfs4]
    simp [lookupEntry_setEntry, hp]
  have hw2 : fs4.writeFile ep_path (dumpJson extraction_protocol) =
      Except.ok ⟨setEntry fs4.entries ep_path
        (Entry.file (dumpJson extraction_protocol)), fs4.unwritable⟩ := by
    apply writeFile_ok_of
    · rw [hepdl]
      apply isDirB_of_lookup
      rw [hlook4 assets_dir hdma]
      exact hdirs assets_dir hmem
    · rw [hepdl]
      exact hunw
    · rw [hlook4 ep_path hdmne, hlookep]
      simp
  have hrun2 : create_rule_assets fs3 =
      ⟨⟨setEntry fs4.entries ep_path
        (Entry.file (dumpJson extraction_protocol)), fs4.unwritable⟩, none⟩ :=
    create_rule_assets_ok_eq hmk2 hw1 hw2
  rw [hrun2]
  refine ⟨rfl, ?_, ?_⟩
  · unfold FS.fileAt FS.lookup
    simp [lookupEntry_setEntry, Ne.symm hdmne, hfs4]
  · unfold FS.fileAt FS.lookup
    simp [lookupEntry_setEntry]

/-- C1: for every run of `create_rule_assets` that completes, each of the
two output files, parsed as JSON, yields a document matching the §3 schema
exactly: `dishonesty_matrix.json` has keys `version`, `contradictions`,
`omissions`, `manipulations`, each category a record of integer `weight`,
string-sequence `examples` and string-sequence `patterns` in construction
order; `extraction_protocol.json` has keys `version`, `step1_keywords`,
`step2_tags` and `step3_scoring` mapping `low`, `medium`, `high` to
`weight`/`color` records. -/
theorem claim_C1_outputs_match_spec_schema (fs : FS)
    (h : (create_rule_assets fs).err = none) :
    ((create_rule_assets fs).fs.fileAt dm_path = some (dumpJson dishonesty_matrix)
      ∧ parseJson (dumpJson dishonesty_matrix) = some dishonesty_matrix
      ∧ specSchemaDishonesty dishonesty_matrix = true)
    ∧ ((create_rule_assets fs).fs.fileAt ep_path = some (dumpJson extraction_protocol)
      ∧ parseJson (dumpJson extraction_protocol) = some extraction_protocol
      ∧ specSchemaExtraction extraction_protocol = true) := by
  obtain ⟨hdm, hep⟩ := run_ok_fileAt h
  exact ⟨⟨hdm, by rfl, by rfl⟩, ⟨hep, by rfl, by rfl⟩⟩

/-- Witness for C1: the hypothesis holds on a pristine root, where the run
completes without an exception. -/
theorem claim_C1_witness :
    (create_rule_assets cleanFS).err = none
    ∧ (((create_rule_assets cleanFS).fs.fileAt dm_path = some (dumpJson dishonesty_matrix)
      ∧ parseJson (dumpJson dishonesty_matrix) = some dishonesty_matrix
      ∧ specSchemaDishonesty dishonesty_matrix = true)
    ∧ ((create_rule_assets cleanFS).fs.fileAt ep_path = some (dumpJson extraction_protocol)
      ∧ parseJson (dumpJson extraction_protocol) = some extraction_protocol
      ∧ specSchemaExtraction extraction_protocol = true)) :=
  ⟨rfl, claim_C1_outputs_match_spec_schema cleanFS rfl⟩

/-- C2: invoking the generator (destination `app/src/main/assets/rules`
relative to the root) on a clean checkout writes a `dishonesty_matrix.json`
whose parsed top-level `version` is `"1.0"` and whose
`contradictions.weight` is `3`, and an `extraction_protocol.json` whose
parsed `step3_scoring.high.color` is `"#F44336"`. -/
theorem claim_C2_concrete_values :
    (create_rule_assets cleanFS).err = none
    ∧ ((writtenDoc (create_rule_assets cleanFS).fs dm_path).bind
        (fun v => getField v "version")) = some (JsonValue.str "1.0")
    ∧ (((writtenDoc (create_rule_assets cleanFS).fs dm_path).bind
        (fun v => getField v "contradictions")).bind
        (fun v => getField v "weight")) = some (JsonValue.int 3)
    ∧ ((((writtenDoc (create_rule_assets cleanFS).fs ep_path).bind
        (fun v => getField v "step3_scoring")).bind
        (fun v => getField v "high")).bind
        (fun v => getField v "color")) = some (JsonValue.str "#F44336") :=
  ⟨rfl, rfl, rfl, rfl⟩

/-- C3: two successive runs in the same root write byte-identical contents
to both output files; moreover the bytes are the fixed serializations of
the two literal documents, independent of the starting filesystem state
(no timestamps, random identifiers or environment-dependent values). -/
theorem claim_C3_deterministic_runs (fs : FS)
    (h : (create_rule_assets fs).err = none) :
    (create_rule_assets (create_rule_assets fs).fs).err = none
    ∧ (create_rule_assets (create_rule_assets fs).fs).fs.fileAt dm_path
        = (create_rule_assets fs).fs.fileAt dm_path
    ∧ (create_rule_assets (create_rule_assets fs).fs).fs.fileAt ep_path
        = (create_rule_assets fs).fs.fileAt ep_path
    ∧ (create_rule_assets fs).fs.fileAt dm_path = some (dumpJson dishonesty_matrix)
    ∧ (create_rule_assets fs).fs.fileAt ep_path = some (dumpJson extraction_protocol) := by
  obtain ⟨h2err, h2dm, h2ep⟩ := run_ok_second_run h
  obtain ⟨h1dm, h1ep⟩ := run_ok_fileAt h
  exact ⟨h2err, by rw [h2dm, h1dm], by rw [h2ep, h1ep], h1dm, h1ep⟩

/-- Witness for C3: the first run on a pristine root completes, so the
theorem applies there. -/
theorem claim_C3_witness :
    (create_rule_assets cleanFS).err = none
    ∧ ((create_rule_assets (create_rule_assets cleanFS).fs).err = none
    ∧ (create_rule_assets (create_rule_assets cleanFS).fs).fs.fileAt dm_path
        = (create_rule_assets cleanFS).fs.fileAt dm_path
    ∧ (create_rule_assets (create_rule_assets cleanFS).fs).fs.fileAt ep_path
        = (create_rule_assets cleanFS).fs.fileAt ep_path
    ∧ (create_rule_assets cleanFS).fs.fileAt dm_path = some (dumpJson dishonesty_matrix)
    ∧ (create_rule_assets cleanFS).fs.fileAt ep_path = some (dumpJson extraction_protocol)) :=
  ⟨rfl, claim_C3_deterministic_runs cleanFS rfl⟩

/-- C4: run against an empty target root, the generator creates exactly
two regular files, at `app/src/main/assets/rules/dishonesty_matrix.json`
and `app/src/main/assets/rules/extraction_protocol.json`, and no others. -/
theorem claim_C4_exactly_two_files :
    cleanFS.filePaths = []
    ∧ (create_rule_assets cleanFS).err = none
    ∧ (create_rule_assets cleanFS).fs.filePaths =
        [["app", "src", "main", "assets", "rules", "dishonesty_matrix.json"],
         ["app", "src", "main", "assets", "rules", "extraction_protocol.json"]] :=
  ⟨rfl, rfl, rfl⟩

/-- C5: every file a successful run writes holds the `dumpJson` rendering
of its document — by construction JSON text indented with 2 spaces whose
mapping keys appear in the order the in-memory records were built — and
that text is pure ASCII, hence valid single-byte UTF-8. -/
theorem claim_C5_file_format (fs : FS)
    (h : (create_rule_assets fs).err = none) :
    (create_rule_assets fs).fs.fileAt dm_path = some (dumpJson dishonesty_matrix)
    ∧ (create_rule_assets fs).fs.fileAt ep_path = some (dumpJson extraction_protocol)
    ∧ (dumpJson dishonesty_matrix).data.all (fun c => c.toNat < 128) = true
    ∧ (dumpJson extraction_protocol).data.all (fun c => c.toNat < 128) = true := by
  obtain ⟨hdm, hep⟩ := run_ok_fileAt h
  exact ⟨hdm, hep, by rfl, by rfl⟩

/-- Witness for C5: instantiated on a pristine root. -/
theorem claim_C5_witness :
    (create_rule_assets cleanFS).err = none
    ∧ ((create_rule_assets cleanFS).fs.fileAt dm_path = some (dumpJson dishonesty_matrix)
    ∧ (create_rule_assets cleanFS).fs.fileAt ep_path = some (dumpJson extraction_protocol)
    ∧ (dumpJson dishonesty_matrix).data.all (fun c => c.toNat < 128) = true
    ∧ (dumpJson extraction_protocol).data.all (fun c => c.toNat < 128) = true) :=
  ⟨rfl, claim_C5_file_format cleanFS rfl⟩

/-- C6: any directory-creation or write failure propagates as an uncaught
exception, so the process exits with non-zero status and never retries;
in particular, when the directory-creation step fails (for example the
destination's parent is unwritable), the filesystem is left exactly as it
was — no files are created. -/
theorem claim_C6_failures_are_fatal :
    (∀ fs : FS, (create_rule_assets fs).err ≠ none → main_exit fs ≠ 0)
    ∧ (∀ (fs : FS) (e : String), mkdirParents fs assets_dir = Except.error e →
        (create_rule_assets fs).fs = fs ∧ main_exit fs ≠ 0) := by
  constructor
  · intro fs herr
    unfold main_exit
    cases hc : (create_rule_assets fs).err with
    | none => exact absurd hc herr
    | some e => simp
  · intro fs e he
    have hrun := create_rule_assets_mkdir_error he
    refine ⟨by rw [hrun], ?_⟩
    unfold main_exit
    rw [hrun]
    simp

/-- Witness for C6: a root whose working directory is unwritable — the
mkdir step raises `PermissionError`, the run fails with no effects, and
the exit status is non-zero. -/
theorem claim_C6_witness :
    ((create_rule_assets (⟨[], [[]]⟩ : FS)).err ≠ none ∧ main_exit ⟨[], [[]]⟩ ≠ 0)
    ∧ ((create_rule_assets (⟨[], [[]]⟩ : FS)).fs = (⟨[], [[]]⟩ : FS)
        ∧ main_exit ⟨[], [[]]⟩ ≠ 0) :=
  ⟨⟨by decide, claim_C6_failures_are_fatal.1 ⟨[], [[]]⟩ (by decide)⟩,
   claim_C6_failures_are_fatal.2 ⟨[], [[]]⟩ "PermissionError" rfl⟩

/-- C7: a successful run leaves every file other than the two named
outputs untouched: at any other path, the file contents after the run are
exactly what they were before. -/
theorem claim_C7_frame (fs : FS) (p : List String)
    (h : (create_rule_assets fs).err = none)
    (h1 : p ≠ dm_path) (h2 : p ≠ ep_path) :
    (create_rule_assets fs).fs.fileAt p = fs.fileAt p := by
  obtain ⟨fs1, fs2, hm, hw1, hw2⟩ := run_ok_decomp h
  rw [writeFile_ok_fileAt_other hw2 (Ne.symm h2),
      writeFile_ok_fileAt_other hw1 (Ne.symm h1)]
  exact foldlM_mkdir_ok_fileAt _ _ _ hm p

/-- Witness for C7: a root containing an unrelated `README.md`; after the
run its contents are unchanged. -/
theorem claim_C7_witness :
    (create_rule_assets (⟨[(["README.md"], Entry.file "unrelated")], []⟩ : FS)).err = none
    ∧ (create_rule_assets
        (⟨[(["README.md"], Entry.file "unrelated")], []⟩ : FS)).fs.fileAt ["README.md"]
      = (⟨[(["README.md"], Entry.file "unrelated")], []⟩ : FS).fileAt ["README.md"] :=
  ⟨rfl, claim_C7_frame ⟨[(["README.md"], Entry.file "unrelated")], []⟩ ["README.md"]
    rfl (by decide) (by decide)⟩

/-- C8: the directory-creation step is idempotent: whenever the
destination chain already exists as directories it succeeds without
changing anything, and after any successful invocation every missing
ancestor has been created as a directory and invoking the step again
succeeds as a no-op. -/
theorem claim_C8_mkdir_idempotent :
    (∀ fs : FS, (∀ q ∈ pathChain assets_dir, fs.lookup q = some Entry.dir) →
        mkdirParents fs assets_dir = Except.ok fs)
    ∧ (∀ fs fs1 : FS, mkdirParents fs assets_dir = Except.ok fs1 →
        (∀ q ∈ pathChain assets_dir, fs1.lookup q = some Entry.dir)
        ∧ mkdirParents fs1 assets_dir = Except.ok fs1) := by
  constructor
  · intro fs hdirs
    exact foldlM_mkdir_of_dirs _ _ hdirs
  · intro fs fs1 h
    have hd := foldlM_mkdir_dirs _ _ _ h
    exact ⟨hd, foldlM_mkdir_of_dirs _ _ hd⟩

/-- Witness for C8: on a pristine root the step creates the full chain of
five directories, and repeating it on the result is a successful no-op. -/
theorem claim_C8_witness :
    mkdirParents cleanFS assets_dir = Except.ok
      (⟨[(["app", "src", "main", "assets", "rules"], Entry.dir),
         (["app", "src", "main", "assets"], Entry.dir),
         (["app", "src", "main"], Entry.dir),
         (["app", "src"], Entry.dir),
         (["app"], Entry.dir)], []⟩ : FS)
    ∧ ((∀ q ∈ pathChain assets_dir,
          (⟨[(["app", "src", "main", "assets", "rules"], Entry.dir),
             (["app", "src", "main", "assets"], Entry.dir),
             (["app", "src", "main"], Entry.dir),
             (["app", "src"], Entry.dir),
             (["app"], Entry.dir)], []⟩ : FS).lookup q = some Entry.dir)
       ∧ mkdirParents
           (⟨[(["app", "src", "main", "assets", "rules"], Entry.dir),
              (["app", "src", "main", "assets"], Entry.dir),
              (["app", "src", "main"], Entry.dir),
              (["app", "src"], Entry.dir),
              (["app"], Entry.dir)], []⟩ : FS) assets_dir
         = Except.ok
           (⟨[(["app", "src", "main", "assets", "rules"], Entry.dir),
              (["app", "src", "main", "assets"], Entry.dir),
              (["app", "src", "main"], Entry.dir),
              (["app", "src"], Entry.dir),
              (["app"], Entry.dir)], []⟩ : FS)) :=
  ⟨rfl, claim_C8_mkdir_idempotent.2 cleanFS _ rfl⟩

/-- C9: every `weight` field in either generated document is an integer
between 1 and 3, and the `step3_scoring` weights strictly increase with
severity: low 1 < medium 2 < high 3. -/
theorem claim_C9_weight_invariants :
    ((weightsOf dishonesty_matrix ++ weightsOf extraction_protocol).all
        (fun w => 1 ≤ w && w ≤ 3)) = true
    ∧ ∃ wl wm wh : Int,
        scoringWeight "low" = some (JsonValue.int wl)
        ∧ scoringWeight "medium" = some (JsonValue.int wm)
        ∧ scoringWeight "high" = some (JsonValue.int wh)
        ∧ wl < wm ∧ wm < wh :=
  ⟨rfl, 1, 2, 3, rfl, rfl, rfl, by decide, by decide⟩

/-- C10: every `step2_tags` string and every `step3_scoring` color starts
with `#`, and each color is `#` followed by exactly six hex digits (the
lists are the full four tags and three colors). -/
theorem claim_C10_tag_color_invariants :
    step2TagStrings.length = 4
    ∧ step2TagStrings.all isHashTag = true
    ∧ scoringColors.length = 3
    ∧ scoringColors.all isHashTag = true
    ∧ scoringColors.all isHexColor = true :=
  ⟨rfl, rfl, rfl, rfl, rfl⟩
